import Mathlib

/-!
Verification of the geospatial segment-matching and route-scoring engine of
the CAV road-readiness service (`src/main.py`).

Modelling conventions.
* Python floats are idealised as exact arithmetic: coordinates and distances
  (which flow through `math.sin`, `math.sqrt`, ...) are real numbers `ℝ`;
  readiness scores and quality ratios (only ever added, divided and compared)
  are rationals `ℚ` so that concrete instances can be evaluated.
* A segment record (`RoadSegment` in `main.py`) is the structure `Segment`.
* Fallible code is modelled with `Option`: a Python `IndexError` or an HTTP
  404 becomes `none`.
* Each definition mirrors one function of `main.py`; the line numbers of the
  source are given in the doc comments.
-/

set_option maxHeartbeats 1000000

/-- The `infrastructure_quality` sub-record of a road segment
(`main.py` lines 38-42). -/
structure InfrastructureQuality where
  lane_markings : ℚ
  signage_visibility : ℚ
  surface_condition : ℚ

/-- One scored road segment (`RoadSegment`, `main.py` lines 45-55). -/
structure Segment where
  segment_id : String
  latitude : ℝ
  longitude : ℝ
  readiness_score : ℚ
  risk_level : String
  risk_color : String
  detected_features : List String
  infrastructure_quality : InfrastructureQuality
  weather_impact : ℚ
  timestamp : String

open Classical

/-- Degrees to radians, `math.radians x = x * pi / 180`. -/
noncomputable def radians (x : ℝ) : ℝ := x * (Real.pi / 180)

/-- Haversine great-circle distance in km (`haversine_distance`,
`main.py` lines 70-83). -/
noncomputable def haversine_distance (lat1 lon1 lat2 lon2 : ℝ) : ℝ :=
  let R : ℝ := 6371
  let lat1_rad := radians lat1
  let lat2_rad := radians lat2
  let delta_lat := radians (lat2 - lat1)
  let delta_lon := radians (lon2 - lon1)
  let a := Real.sin (delta_lat / 2) ^ 2 +
    Real.cos lat1_rad * Real.cos lat2_rad * Real.sin (delta_lon / 2) ^ 2
  let c := 2 * Real.arcsin (Real.sqrt a)
  R * c

/-- The clamped projection parameter `t` of `point_to_line_distance`
(`main.py` line 112). -/
noncomputable def proj_t (px py x1 y1 x2 y2 : ℝ) : ℝ :=
  max 0 (min 1 (((px - x1) * (x2 - x1) + (py - y1) * (y2 - y1)) /
    ((x2 - x1) ^ 2 + (y2 - y1) ^ 2)))

/-- The x-coordinate of the closest point on the segment (`main.py` line 115). -/
noncomputable def closest_x (px py x1 y1 x2 y2 : ℝ) : ℝ :=
  x1 + proj_t px py x1 y1 x2 y2 * (x2 - x1)

/-- The y-coordinate of the closest point on the segment (`main.py` line 116). -/
noncomputable def closest_y (px py x1 y1 x2 y2 : ℝ) : ℝ :=
  y1 + proj_t px py x1 y1 x2 y2 * (y2 - y1)

/-- Distance from the point `(px, py)` to the finite segment
`[(x1, y1), (x2, y2)]` in the plane (`point_to_line_distance`,
`main.py` lines 101-119). -/
noncomputable def point_to_line_distance (px py x1 y1 x2 y2 : ℝ) : ℝ :=
  if x2 - x1 = 0 ∧ y2 - y1 = 0 then
    Real.sqrt ((px - x1) ^ 2 + (py - y1) ^ 2)
  else
    Real.sqrt ((px - closest_x px py x1 y1 x2 y2) ^ 2 +
      (py - closest_y px py x1 y1 x2 y2) ^ 2)

/-- Euclidean degree-space distance between two points, the quantity the
degenerate branch of `point_to_line_distance` returns (spec 4.1). -/
noncomputable def euclidean_distance_deg (px py ax ay : ℝ) : ℝ :=
  Real.sqrt ((px - ax) ^ 2 + (py - ay) ^ 2)

/-- The corridor predicate checked for one segment inside the loop of
`find_route_segments` (`main.py` lines 131-155): the bounding-box
pre-filter with margin `corridor_width_km / 111` on both axes, and the
perpendicular-distance filter `distance_in_degrees * 111 ≤ corridor_width_km`.
Note the point handed to `point_to_line_distance` is `(lon, lat)`. -/
def within_corridor (start_lat start_lon end_lat end_lon corridor_width_km : ℝ)
    (s : Segment) : Prop :=
  (min start_lat end_lat - corridor_width_km / 111 ≤ s.latitude ∧
    s.latitude ≤ max start_lat end_lat + corridor_width_km / 111 ∧
    min start_lon end_lon - corridor_width_km / 111 ≤ s.longitude ∧
    s.longitude ≤ max start_lon end_lon + corridor_width_km / 111) ∧
  point_to_line_distance s.longitude s.latitude start_lon start_lat end_lon end_lat
    * 111 ≤ corridor_width_km

/-- The loop of `find_route_segments` (`main.py` lines 122-158): walk the
store in order and append every segment passing the two-stage corridor
check. -/
noncomputable def find_route_segments
    (start_lat start_lon end_lat end_lon corridor_width_km : ℝ) :
    List Segment → List Segment
  | [] => []
  | s :: rest =>
    if within_corridor start_lat start_lon end_lat end_lon corridor_width_km s then
      s :: find_route_segments start_lat start_lon end_lat end_lon corridor_width_km rest
    else
      find_route_segments start_lat start_lon end_lat end_lon corridor_width_km rest

/-- Declarative form of the corridor query: the store filtered by the
two-stage predicate, in store order. -/
noncomputable def corridor_filter_spec
    (start_lat start_lon end_lat end_lon corridor_width_km : ℝ)
    (store : List Segment) : List Segment :=
  store.filter fun s =>
    decide (within_corridor start_lat start_lon end_lat end_lon corridor_width_km s)

/-- Stage-2-only corridor query: the store filtered by the
perpendicular-distance test alone, with no bounding-box pre-filter. -/
noncomputable def corridor_perp_only
    (start_lat start_lon end_lat end_lon corridor_width_km : ℝ)
    (store : List Segment) : List Segment :=
  store.filter fun s =>
    decide (point_to_line_distance s.longitude s.latitude start_lon start_lat
      end_lon end_lat * 111 ≤ corridor_width_km)

/-- Haversine distance from a query point to a segment's location, the
quantity tracked by `find_nearest_segment` (`main.py` lines 91-93). -/
noncomputable def query_distance (lat lon : ℝ) (s : Segment) : ℝ :=
  haversine_distance lat lon s.latitude s.longitude

/-- The loop of `find_nearest_segment` (`main.py` lines 86-98).  The
accumulator holds the current best segment together with its distance;
`none` models the initial state `nearest = None, min_distance = inf`
(any distance is below infinity, so from the `none` state a candidate is
taken as soon as it is within the radius). -/
noncomputable def find_nearest_aux (d : Segment → ℝ) (max_distance_km : ℝ) :
    List Segment → Option (Segment × ℝ) → Option (Segment × ℝ)
  | [], acc => acc
  | s :: rest, none =>
    if d s ≤ max_distance_km then
      find_nearest_aux d max_distance_km rest (some (s, d s))
    else
      find_nearest_aux d max_distance_km rest none
  | s :: rest, some (b, m) =>
    if d s < m ∧ d s ≤ max_distance_km then
      find_nearest_aux d max_distance_km rest (some (s, d s))
    else
      find_nearest_aux d max_distance_km rest (some (b, m))

/-- `find_nearest_segment` (`main.py` lines 86-98): nearest segment of the
store within `max_distance_km` of the query point, or `none`. -/
noncomputable def find_nearest_segment (lat lon max_distance_km : ℝ)
    (store : List Segment) : Option Segment :=
  (find_nearest_aux (query_distance lat lon) max_distance_km store none).map Prod.fst

/-- The sampling index of `sample_segments_evenly` (`main.py` lines 167-171):
`step = len(segments) / max_samples` as an exact rational and
`idx = int(i * step)`, which truncates toward zero, i.e. takes the floor of
the non-negative value `i * step`. -/
def sample_idx (n m i : ℕ) : ℕ := ⌊(i : ℚ) * ((n : ℚ) / (m : ℚ))⌋₊

/-- Look up a list of indices in order (`sampled.append(segments[idx])`,
`main.py` line 172); `none` models the `IndexError` raised by an
out-of-bounds index. -/
def get_indices (segments : List Segment) : List ℕ → Option (List Segment)
  | [] => some []
  | i :: rest =>
    match segments.get? i, get_indices segments rest with
    | some s, some out => some (s :: out)
    | _, _ => none

/-- `sample_segments_evenly` (`main.py` lines 161-174): return the input
unchanged when it is short enough, otherwise pick `max_samples` evenly
strided elements. -/
def sample_segments_evenly (segments : List Segment) (max_samples : ℕ) :
    Option (List Segment) :=
  if segments.length ≤ max_samples then some segments
  else
    get_indices segments
      ((List.range max_samples).map fun i => sample_idx segments.length max_samples i)

/-- `generate_recommendations` (`main.py` lines 177-205). -/
def generate_recommendations (segments : List Segment) : List String :=
  let critical_count := segments.countP fun s => s.risk_level == "CRITICAL"
  let avg_lane_quality : ℚ :=
    (segments.map fun s => s.infrastructure_quality.lane_markings).sum /
      (segments.length : ℚ)
  let roundabouts := segments.countP fun s => s.detected_features.contains "roundabout"
  let construction := segments.countP fun s => s.detected_features.contains "construction_zone"
  let recommendations :=
    (if 0 < critical_count then
      ["⚠️ " ++ toString critical_count ++
        " critical risk segments detected - manual review recommended"]
    else []) ++
    (if avg_lane_quality < 0.6 then
      ["🛣️ Lane marking quality below threshold - consider alternative route or infrastructure upgrade"]
    else []) ++
    (if 3 < roundabouts then
      ["🔄 " ++ toString roundabouts ++
        " roundabouts detected - ensure AV is validated for UK-style roundabouts"]
    else []) ++
    (if 0 < construction then
      ["🚧 " ++ toString construction ++
        " construction zones - check for real-time updates before deployment"]
    else [])
  if recommendations = [] then
    ["✅ Route meets minimum readiness criteria for AV deployment"]
  else recommendations

/-- Arithmetic mean of `readiness_score` over a segment list
(`main.py` line 263). -/
def avg_readiness (segments : List Segment) : ℚ :=
  (segments.map fun s => s.readiness_score).sum / (segments.length : ℚ)

/-- The critical-segment subset as the code computes it (`main.py` line 264):
a filter on the stored `risk_level` string. -/
def critical_of (segments : List Segment) : List Segment :=
  segments.filter fun s => s.risk_level == "CRITICAL"

/-- The route-level risk classification from the average score
(`main.py` lines 267-272). -/
def overall_risk_of (avg : ℚ) : String :=
  if avg ≥ 75 then "COMPLIANT" else if avg ≥ 50 then "MODERATE" else "CRITICAL"

/-- Round half to even, the rounding mode of Python's builtin `round`. -/
def round_half_even (q : ℚ) : ℤ :=
  if q - ⌊q⌋ < 1 / 2 then ⌊q⌋
  else if 1 / 2 < q - ⌊q⌋ then ⌊q⌋ + 1
  else if ⌊q⌋ % 2 = 0 then ⌊q⌋ else ⌊q⌋ + 1

/-- Python's `round(q, 1)`: round half to even at one decimal place
(`main.py` line 286). -/
def python_round_1 (q : ℚ) : ℚ := (round_half_even (q * 10) : ℚ) / 10

/-- The fields of the `RouteAssessment` response that depend on the matched
segment set (`main.py` lines 58-65; `route_id` is a wall-clock timestamp and
`total_distance_km` depends only on the raw query endpoints, so neither is
part of the segment statistics modelled here). -/
structure RouteAssessmentData where
  average_readiness_score : ℚ
  overall_risk_level : String
  segments : List Segment
  critical_segments : List Segment
  recommendations : List String

/-- The aggregation section of `assess_route` (`main.py` lines 253-291),
as a function of the matched segment list: 404 on an empty match becomes
`none`, the statistics are computed from the full list, and the display
list is sampled afterwards (`main.py` line 281, `max_samples=1000`). -/
def assess_route_from (matched : List Segment) : Option RouteAssessmentData :=
  match matched with
  | [] => none
  | _ :: _ =>
    let avg_score := avg_readiness matched
    let critical_segments := matched.filter fun s => s.risk_level == "CRITICAL"
    let overall_risk :=
      if avg_score ≥ 75 then "COMPLIANT"
      else if avg_score ≥ 50 then "MODERATE"
      else "CRITICAL"
    let recommendations := generate_recommendations matched
    match sample_segments_evenly matched 1000 with
    | none => none
    | some display_segments =>
      some ⟨python_round_1 avg_score, overall_risk, display_segments,
        critical_segments, recommendations⟩

/-- Loading the segment store (`main.py` lines 31-33): the parsed JSON list
is bound directly, with no validation of any kind; in particular there is no
emptiness check.  The `Option` codomain models the error channel the spec
calls `EmptyDatasetError` (a failing load would be `none`). -/
def load_segment_store (segments : List Segment) : Option (List Segment) :=
  some segments

/-- A segment value with the given location, score and stored risk label,
for concrete instances. -/
def mk_seg (lat lon : ℝ) (score : ℚ) (risk : String) : Segment :=
  ⟨"seg", lat, lon, score, risk, "green", [], ⟨1, 1, 1⟩, 0, "t"⟩

/-- A store of five segments, for concrete instances. -/
def segs5 : List Segment :=
  [mk_seg 51 0 80 "COMPLIANT", mk_seg 51.1 0 40 "CRITICAL",
   mk_seg 51.2 0 60 "MODERATE", mk_seg 51.3 0 90 "COMPLIANT",
   mk_seg 51.4 0 55 "MODERATE"]

/-- A matched set of 1001 segments, one more than the sampling limit, every
segment carrying the score 1/3. -/
def cex_segments : List Segment :=
  List.replicate 1001 (mk_seg 51 0 (1 / 3) "COMPLIANT")

/-- A segment whose stored risk label contradicts its readiness score:
the score 40 derives the classification CRITICAL (spec 3), but the stored
label says MODERATE. -/
def bad_segment : Segment := mk_seg 51 0 40 "MODERATE"

/-! ### Corridor query lemmas -/

lemma find_route_segments_eq_filter
    (start_lat start_lon end_lat end_lon w : ℝ) (store : List Segment) :
    find_route_segments start_lat start_lon end_lat end_lon w store =
      corridor_filter_spec start_lat start_lon end_lat end_lon w store := by
  induction store with
  | nil => rfl
  | cons s rest ih =>
    by_cases h : within_corridor start_lat start_lon end_lat end_lon w s
    · simp [find_route_segments, corridor_filter_spec, List.filter_cons, h] at ih ⊢
      exact ih
    · simp [find_route_segments, corridor_filter_spec, List.filter_cons, h] at ih ⊢
      exact ih

lemma mem_find_route_segments
    (start_lat start_lon end_lat end_lon w : ℝ) (store : List Segment) (s : Segment) :
    s ∈ find_route_segments start_lat start_lon end_lat end_lon w store ↔
      s ∈ store ∧ within_corridor start_lat start_lon end_lat end_lon w s := by
  rw [find_route_segments_eq_filter]
  simp [corridor_filter_spec, List.mem_filter]

lemma proj_t_nonneg (px py x1 y1 x2 y2 : ℝ) : 0 ≤ proj_t px py x1 y1 x2 y2 :=
  le_max_left _ _

lemma proj_t_le_one (px py x1 y1 x2 y2 : ℝ) : proj_t px py x1 y1 x2 y2 ≤ 1 :=
  max_le zero_le_one (min_le_left _ _)

lemma convex_combination_bounds (t a b : ℝ) (h0 : 0 ≤ t) (h1 : t ≤ 1) :
    min a b ≤ a + t * (b - a) ∧ a + t * (b - a) ≤ max a b := by
  rcases le_total a b with hab | hab
  · rw [min_eq_left hab, max_eq_right hab]
    constructor <;> nlinarith
  · rw [min_eq_right hab, max_eq_left hab]
    constructor <;> nlinarith

/-- The point whose distance `point_to_line_distance` returns lies inside the
bounding box of the segment's two endpoints. -/
lemma point_to_line_distance_closest (px py x1 y1 x2 y2 : ℝ) :
    ∃ cx cy, point_to_line_distance px py x1 y1 x2 y2 =
        Real.sqrt ((px - cx) ^ 2 + (py - cy) ^ 2) ∧
      min x1 x2 ≤ cx ∧ cx ≤ max x1 x2 ∧ min y1 y2 ≤ cy ∧ cy ≤ max y1 y2 := by
  by_cases h : x2 - x1 = 0 ∧ y2 - y1 = 0
  · obtain ⟨hx, hy⟩ := h
    rw [sub_eq_zero] at hx hy
    refine ⟨x1, y1, ?_, ?_, ?_, ?_, ?_⟩
    · rw [point_to_line_distance, if_pos ⟨sub_eq_zero.mpr hx, sub_eq_zero.mpr hy⟩]
    · rw [hx, min_self]
    · rw [hx, max_self]
    · rw [hy, min_self]
    · rw [hy, max_self]
  · refine ⟨closest_x px py x1 y1 x2 y2, closest_y px py x1 y1 x2 y2, ?_, ?_, ?_, ?_, ?_⟩
    · rw [point_to_line_distance, if_neg h]
    · exact (convex_combination_bounds _ x1 x2 (proj_t_nonneg px py x1 y1 x2 y2)
        (proj_t_le_one px py x1 y1 x2 y2)).1
    · exact (convex_combination_bounds _ x1 x2 (proj_t_nonneg px py x1 y1 x2 y2)
        (proj_t_le_one px py x1 y1 x2 y2)).2
    · exact (convex_combination_bounds _ y1 y2 (proj_t_nonneg px py x1 y1 x2 y2)
        (proj_t_le_one px py x1 y1 x2 y2)).1
    · exact (convex_combination_bounds _ y1 y2 (proj_t_nonneg px py x1 y1 x2 y2)
        (proj_t_le_one px py x1 y1 x2 y2)).2

lemma abs_le_sqrt_add_sq (a b : ℝ) : |a| ≤ Real.sqrt (a ^ 2 + b ^ 2) := by
  rw [← Real.sqrt_sq_eq_abs]
  exact Real.sqrt_le_sqrt (by nlinarith [sq_nonneg b])

lemma abs_le_sqrt_add_sq' (a b : ℝ) : |b| ≤ Real.sqrt (a ^ 2 + b ^ 2) := by
  rw [← Real.sqrt_sq_eq_abs]
  exact Real.sqrt_le_sqrt (by nlinarith [sq_nonneg a])

/-- Soundness of the bounding-box pre-filter: a segment passing the
perpendicular-distance test is inside the expanded bounding box. -/
lemma bbox_of_perp (start_lat start_lon end_lat end_lon w : ℝ) (s : Segment)
    (h : point_to_line_distance s.longitude s.latitude start_lon start_lat
      end_lon end_lat * 111 ≤ w) :
    min start_lat end_lat - w / 111 ≤ s.latitude ∧
      s.latitude ≤ max start_lat end_lat + w / 111 ∧
      min start_lon end_lon - w / 111 ≤ s.longitude ∧
      s.longitude ≤ max start_lon end_lon + w / 111 := by
  obtain ⟨cx, cy, heq, hcx1, hcx2, hcy1, hcy2⟩ :=
    point_to_line_distance_closest s.longitude s.latitude start_lon start_lat
      end_lon end_lat
  have hperp : point_to_line_distance s.longitude s.latitude start_lon start_lat
      end_lon end_lat ≤ w / 111 := by
    rw [le_div_iff₀ (by norm_num : (0:ℝ) < 111)]
    exact h
  have hx : |s.longitude - cx| ≤ w / 111 :=
    le_trans (heq ▸ abs_le_sqrt_add_sq (s.longitude - cx) (s.latitude - cy)) hperp
  have hy : |s.latitude - cy| ≤ w / 111 :=
    le_trans (heq ▸ abs_le_sqrt_add_sq' (s.longitude - cx) (s.latitude - cy)) hperp
  rw [abs_le] at hx hy
  refine ⟨by linarith [hy.1], by linarith [hy.2], by linarith [hx.1], by linarith [hx.2]⟩

lemma within_corridor_iff_perp (start_lat start_lon end_lat end_lon w : ℝ)
    (s : Segment) :
    within_corridor start_lat start_lon end_lat end_lon w s ↔
      point_to_line_distance s.longitude s.latitude start_lon start_lat
        end_lon end_lat * 111 ≤ w := by
  constructor
  · exact fun h => h.2
  · exact fun h => ⟨bbox_of_perp start_lat start_lon end_lat end_lon w s h, h⟩

/-- C1: for every store, start/end coordinates and corridor width,
`find_route_segments` returns exactly the segments passing the bounding-box
pre-filter (margin `corridorWidthKm / 111`) whose degree-space
point-to-segment distance to the line from start to end, multiplied by 111,
is at most `corridorWidthKm`, in store iteration order. -/
theorem find_route_segments_eq_corridor_filter
    (start_lat start_lon end_lat end_lon w : ℝ) (store : List Segment) :
    find_route_segments start_lat start_lon end_lat end_lon w store =
      corridor_filter_spec start_lat start_lon end_lat end_lon w store :=
  find_route_segments_eq_filter start_lat start_lon end_lat end_lon w store

/-- C6: `find_route_segments` is monotonic in the corridor width: every
segment matched at width `w1` is still matched at any width `w2 ≥ w1`. -/
theorem find_route_segments_monotone
    (start_lat start_lon end_lat end_lon : ℝ) (w1 w2 : ℝ) (store : List Segment)
    (h : w1 ≤ w2) (s : Segment)
    (hs : s ∈ find_route_segments start_lat start_lon end_lat end_lon w1 store) :
    s ∈ find_route_segments start_lat start_lon end_lat end_lon w2 store := by
  rw [mem_find_route_segments] at hs ⊢
  obtain ⟨hmem, ⟨hbox, hperp⟩⟩ := hs
  have hdiv : w1 / 111 ≤ w2 / 111 := by linarith
  obtain ⟨hb1, hb2, hb3, hb4⟩ := hbox
  exact ⟨hmem, ⟨by linarith, by linarith, by linarith, by linarith⟩, by linarith⟩

/-- Witness for C6 at a concrete store: the segment at the query point is
matched at width 0 and, by monotonicity, still matched at width 1. -/
theorem find_route_segments_monotone_witness :
    (0 : ℝ) ≤ 1 ∧
      mk_seg 0 0 80 "COMPLIANT" ∈
        find_route_segments 0 0 0 0 0 [mk_seg 0 0 80 "COMPLIANT"] ∧
      mk_seg 0 0 80 "COMPLIANT" ∈
        find_route_segments 0 0 0 0 1 [mk_seg 0 0 80 "COMPLIANT"] := by
  have hptl : point_to_line_distance 0 0 0 0 0 0 = 0 := by
    rw [point_to_line_distance, if_pos (by norm_num)]
    norm_num
  have hmem : mk_seg 0 0 80 "COMPLIANT" ∈
      find_route_segments 0 0 0 0 0 [mk_seg 0 0 80 "COMPLIANT"] := by
    rw [mem_find_route_segments]
    refine ⟨List.mem_singleton_self _, ?_, ?_⟩
    · simp [mk_seg]
    · simp [mk_seg, hptl]
  exact ⟨zero_le_one, hmem,
    find_route_segments_monotone 0 0 0 0 0 1 _ zero_le_one _ hmem⟩

/-- C9: the bounding-box pre-filter is sound: for a non-negative corridor
width, the two-stage filter of `find_route_segments` returns exactly the
segments the perpendicular-distance filter alone would return. -/
theorem bounding_box_prefilter_sound
    (start_lat start_lon end_lat end_lon w : ℝ) (store : List Segment)
    (_hw : 0 ≤ w) :
    find_route_segments start_lat start_lon end_lat end_lon w store =
      corridor_perp_only start_lat start_lon end_lat end_lon w store := by
  rw [find_route_segments_eq_filter]
  unfold corridor_filter_spec corridor_perp_only
  refine List.filter_congr ?_
  intro s _
  rw [decide_eq_decide]
  exact within_corridor_iff_perp start_lat start_lon end_lat end_lon w s

/-- Witness for C9 at a concrete input: with width 1 and a one-segment
store at the query point, the two filters agree. -/
theorem bounding_box_prefilter_sound_witness :
    (0 : ℝ) ≤ 1 ∧
      find_route_segments 0 0 0 0 1 [mk_seg 0 0 80 "COMPLIANT"] =
        corridor_perp_only 0 0 0 0 1 [mk_seg 0 0 80 "COMPLIANT"] :=
  ⟨zero_le_one, bounding_box_prefilter_sound 0 0 0 0 1 _ zero_le_one⟩

/-- C7 (amended): the degenerate-segment case of `point_to_line_distance`
equals the degree-space Euclidean distance from the point to the collapsed
endpoint, not the haversine distance. -/
theorem degenerate_segment_euclidean (px py ax ay : ℝ) :
    point_to_line_distance px py ax ay ax ay = euclidean_distance_deg px py ax ay := by
  rw [point_to_line_distance, if_pos ⟨sub_self ax, sub_self ay⟩]
  rfl

/-- Counterexample to C7 as stated: for the point with latitude 1, longitude 0
and the collapsed segment at latitude 0, longitude 0, the degenerate
point-to-segment distance is 1 (degree), while the haversine distance of the
same pair of coordinates is 6371·π/180 km, which is not 1. -/
theorem degenerate_segment_not_haversine_cex :
    point_to_line_distance 0 1 0 0 0 0 = 1 ∧ haversine_distance 1 0 0 0 ≠ 1 := by
  constructor
  · rw [point_to_line_distance, if_pos (by norm_num)]
    norm_num
  · have hval : haversine_distance 1 0 0 0 = 6371 * (Real.pi / 180) := by
      simp only [haversine_distance, radians]
      have h1 : (0 - 1 : ℝ) * (Real.pi / 180) / 2 = -(Real.pi / 360) := by ring
      have h2 : (0 - 0 : ℝ) * (Real.pi / 180) / 2 = 0 := by ring
      rw [h1, h2]
      have hsq : Real.sin (-(Real.pi / 360)) ^ 2 = Real.sin (Real.pi / 360) ^ 2 := by
        rw [Real.sin_neg]
        ring
      rw [hsq]
      simp only [Real.sin_zero]
      have hz : Real.sin (Real.pi / 360) ^ 2 +
          Real.cos (1 * (Real.pi / 180)) * Real.cos (0 * (Real.pi / 180)) * 0 ^ 2 =
          Real.sin (Real.pi / 360) ^ 2 := by ring
      rw [hz]
      have hnn : 0 ≤ Real.sin (Real.pi / 360) := by
        apply Real.sin_nonneg_of_nonneg_of_le_pi
        · positivity
        · nlinarith [Real.pi_pos]
      rw [Real.sqrt_sq hnn]
      rw [Real.arcsin_sin (by nlinarith [Real.pi_pos]) (by nlinarith [Real.pi_pos])]
      ring
    rw [hval]
    have := Real.pi_gt_three
    intro hcon
    nlinarith

/-! ### Nearest-segment lemmas -/

/-- Running the nearest-segment loop from an in-radius current best `b0`
returns an in-radius best `b`, and either the best is unchanged and nothing
in the remaining list beats it, or `b` occurs in the remaining list, beats
`b0` strictly, beats everything before its occurrence strictly (or those are
out of radius), and is never beaten by anything after it. -/
lemma find_nearest_aux_char (d : Segment → ℝ) (r : ℝ) (l : List Segment) :
    ∀ b0 : Segment, d b0 ≤ r →
    ∃ b, find_nearest_aux d r l (some (b0, d b0)) = some (b, d b) ∧
      d b ≤ r ∧ d b ≤ d b0 ∧
      ((b = b0 ∧ ∀ s ∈ l, r < d s ∨ d b0 ≤ d s) ∨
       (d b < d b0 ∧ ∃ l1 l2, l = l1 ++ b :: l2 ∧
         (∀ s ∈ l1, r < d s ∨ d b < d s) ∧ (∀ s ∈ l2, r < d s ∨ d b ≤ d s))) := by
  induction l with
  | nil =>
    intro b0 h0
    exact ⟨b0, rfl, h0, le_refl _, Or.inl ⟨rfl, by simp⟩⟩
  | cons s rest ih =>
    intro b0 h0
    by_cases hc : d s < d b0 ∧ d s ≤ r
    · obtain ⟨b, hb, hbr, hbs, hcase⟩ := ih s hc.2
      refine ⟨b, ?_, hbr, le_trans hbs (le_of_lt hc.1),
        Or.inr ⟨lt_of_le_of_lt hbs hc.1, ?_⟩⟩
      · simp only [find_nearest_aux]
        rw [if_pos hc]
        exact hb
      · rcases hcase with ⟨rfl, hrest⟩ | ⟨hlt, l1, l2, heq, h1, h2⟩
        · exact ⟨[], rest, rfl, by simp, hrest⟩
        · refine ⟨s :: l1, l2, by rw [heq, List.cons_append], ?_, h2⟩
          intro s' hs'
          rcases List.mem_cons.mp hs' with rfl | hs'
          · exact Or.inr hlt
          · exact h1 s' hs'
    · have hrej : r < d s ∨ d b0 ≤ d s := by
        rcases not_and_or.mp hc with h' | h'
        · exact Or.inr (not_lt.mp h')
        · exact Or.inl (not_le.mp h')
      obtain ⟨b, hb, hbr, hbs, hcase⟩ := ih b0 h0
      refine ⟨b, ?_, hbr, hbs, ?_⟩
      · simp only [find_nearest_aux]
        rw [if_neg hc]
        exact hb
      · rcases hcase with ⟨hbb0, hrest⟩ | ⟨hlt, l1, l2, heq, h1, h2⟩
        · refine Or.inl ⟨hbb0, ?_⟩
          intro s' hs'
          rcases List.mem_cons.mp hs' with rfl | hs'
          · exact hrej
          · exact hrest s' hs'
        · refine Or.inr ⟨hlt, s :: l1, l2, by rw [heq, List.cons_append], ?_, h2⟩
          intro s' hs'
          rcases List.mem_cons.mp hs' with rfl | hs'
          · rcases hrej with h' | h'
            · exact Or.inl h'
            · exact Or.inr (lt_of_lt_of_le hlt h')
          · exact h1 s' hs'

/-- Running the nearest-segment loop from the initial state returns `none`
exactly when everything is out of radius; otherwise it returns an in-radius
segment that strictly beats everything before it (or those are out of
radius) and is never beaten by anything after it. -/
lemma find_nearest_aux_none_char (d : Segment → ℝ) (r : ℝ) (l : List Segment) :
    (find_nearest_aux d r l none = none ∧ ∀ s ∈ l, r < d s) ∨
    (∃ b, find_nearest_aux d r l none = some (b, d b) ∧ d b ≤ r ∧
      ∃ l1 l2, l = l1 ++ b :: l2 ∧ (∀ s ∈ l1, r < d s ∨ d b < d s) ∧
        (∀ s ∈ l2, r < d s ∨ d b ≤ d s)) := by
  induction l with
  | nil => exact Or.inl ⟨rfl, by simp⟩
  | cons s rest ih =>
    by_cases hc : d s ≤ r
    · right
      obtain ⟨b, hb, hbr, hbs, hcase⟩ := find_nearest_aux_char d r rest s hc
      refine ⟨b, ?_, hbr, ?_⟩
      · simp only [find_nearest_aux]
        rw [if_pos hc]
        exact hb
      · rcases hcase with ⟨rfl, hrest⟩ | ⟨hlt, l1, l2, heq, h1, h2⟩
        · exact ⟨[], rest, rfl, by simp, hrest⟩
        · refine ⟨s :: l1, l2, by rw [heq, List.cons_append], ?_, h2⟩
          intro s' hs'
          rcases List.mem_cons.mp hs' with rfl | hs'
          · exact Or.inr hlt
          · exact h1 s' hs'
    · rcases ih with ⟨hnone, hall⟩ | ⟨b, hb, hbr, l1, l2, heq, h1, h2⟩
      · left
        constructor
        · simp only [find_nearest_aux]
          rw [if_neg hc]
          exact hnone
        · intro s' hs'
          rcases List.mem_cons.mp hs' with rfl | hs'
          · exact not_le.mp hc
          · exact hall s' hs'
      · right
        refine ⟨b, ?_, hbr, s :: l1, l2, by rw [heq, List.cons_append], ?_, h2⟩
        · simp only [find_nearest_aux]
          rw [if_neg hc]
          exact hb
        · intro s' hs'
          rcases List.mem_cons.mp hs' with rfl | hs'
          · exact Or.inl (not_le.mp hc)
          · exact h1 s' hs'

lemma haversine_self (lat lon : ℝ) : haversine_distance lat lon lat lon = 0 := by
  simp [haversine_distance, radians]

/-- C2: `find_nearest_segment` returns `none` when every segment's haversine
distance to the query point exceeds `max_distance_km`; otherwise it returns
some segment, and any returned segment is within the radius, has minimal
distance among the in-radius segments, and is the first segment of the store
attaining that minimal distance (everything before its occurrence is either
out of radius or strictly farther). -/
theorem find_nearest_segment_spec (store : List Segment) (lat lon r : ℝ) :
    ((∀ s ∈ store, r < query_distance lat lon s) →
      find_nearest_segment lat lon r store = none) ∧
    ((∃ s ∈ store, query_distance lat lon s ≤ r) →
      ∃ b, find_nearest_segment lat lon r store = some b) ∧
    (∀ b, find_nearest_segment lat lon r store = some b →
      query_distance lat lon b ≤ r ∧
      (∀ s ∈ store, query_distance lat lon s ≤ r →
        query_distance lat lon b ≤ query_distance lat lon s) ∧
      ∃ l1 l2, store = l1 ++ b :: l2 ∧
        ∀ s ∈ l1, r < query_distance lat lon s ∨
          query_distance lat lon b < query_distance lat lon s) := by
  rcases find_nearest_aux_none_char (query_distance lat lon) r store with
    ⟨hnone, hall⟩ | ⟨b, hb, hbr, l1, l2, heq, h1, h2⟩
  · refine ⟨fun _ => ?_, fun ⟨s, hs, hsr⟩ => absurd hsr (not_le.mpr (hall s hs)),
      fun b hbfind => ?_⟩
    · unfold find_nearest_segment
      rw [hnone]
      rfl
    · exfalso
      unfold find_nearest_segment at hbfind
      rw [hnone] at hbfind
      exact Option.noConfusion hbfind
  · have hfind : find_nearest_segment lat lon r store = some b := by
      unfold find_nearest_segment
      rw [hb]
      rfl
    have hbmem : b ∈ store := by
      rw [heq]
      exact List.mem_append_right _ (List.mem_cons_self _ _)
    refine ⟨fun hall' => absurd hbr (not_le.mpr (hall' b hbmem)),
      fun _ => ⟨b, hfind⟩, fun b' hb' => ?_⟩
    have hbb : b' = b := by
      rw [hfind] at hb'
      exact (Option.some.inj hb').symm
    subst hbb
    refine ⟨hbr, ?_, l1, l2, heq, h1⟩
    intro s hs hsr
    rw [heq] at hs
    rcases List.mem_append.mp hs with hs1 | hs2
    · rcases h1 s hs1 with h' | h'
      · exact absurd hsr (not_le.mpr h')
      · exact le_of_lt h'
    · rcases List.mem_cons.mp hs2 with rfl | hs2
      · exact le_refl _
      · rcases h2 s hs2 with h' | h'
        · exact absurd hsr (not_le.mpr h')
        · exact h'

/-- Witness for C2 at a concrete store: a single segment located exactly at
the query point is within radius 1 (its haversine distance is 0), so the
query returns some segment. -/
theorem find_nearest_segment_spec_witness :
    query_distance 51 0 (mk_seg 51 0 80 "COMPLIANT") ≤ 1 ∧
      ∃ b, find_nearest_segment 51 0 1 [mk_seg 51 0 80 "COMPLIANT"] = some b := by
  have hq : query_distance 51 0 (mk_seg 51 0 80 "COMPLIANT") ≤ 1 := by
    simp [query_distance, mk_seg, haversine_self]
  exact ⟨hq, (find_nearest_segment_spec [mk_seg 51 0 80 "COMPLIANT"] 51 0 1).2.1
    ⟨_, List.mem_singleton_self _, hq⟩⟩

/-! ### Sampler lemmas -/

/-- The rational-floor sampling index is plain natural division. -/
lemma sample_idx_eq (n m i : ℕ) : sample_idx n m i = i * n / m := by
  unfold sample_idx
  rw [← mul_div_assoc, ← Nat.cast_mul, Nat.floor_div_nat, Nat.floor_natCast]

lemma sample_idx_lt (n m i : ℕ) (hmn : m < n) (hi : i < m) :
    sample_idx n m i < n := by
  rw [sample_idx_eq]
  have hm : 0 < m := by omega
  have hn : 0 < n := by omega
  refine (Nat.div_lt_iff_lt_mul hm).mpr ?_
  have hlt : i * n < m * n := mul_lt_mul_of_pos_right hi hn
  exact lt_of_lt_of_eq hlt (mul_comm m n)

lemma sample_idx_strict_mono (n m i j : ℕ) (hm : 0 < m) (hmn : m < n) (hij : i < j) :
    sample_idx n m i < sample_idx n m j := by
  rw [sample_idx_eq, sample_idx_eq]
  have hstep : i * n + m < j * n := by
    have h1 : (i + 1) * n ≤ j * n := Nat.mul_le_mul_right n hij
    have h2 : m < n := hmn
    nlinarith
  have hdiv : (i * n + m) / m ≤ j * n / m := Nat.div_le_div_right (le_of_lt hstep)
  rw [Nat.add_div_right _ hm] at hdiv
  omega

/-- Indexing a list at a list of in-bounds indices succeeds, and the result
reads off the indices in order. -/
lemma get_indices_spec (segments : List Segment) (l : List ℕ)
    (h : ∀ i ∈ l, i < segments.length) :
    ∃ out, get_indices segments l = some out ∧ out.length = l.length ∧
      ∀ k : ℕ, out.get? k = (l.get? k).bind segments.get? := by
  induction l with
  | nil =>
    refine ⟨[], rfl, rfl, fun k => ?_⟩
    cases k <;> rfl
  | cons i t ih =>
    have hi : i < segments.length := h i (List.mem_cons_self _ _)
    obtain ⟨out, hout, hlen, hk⟩ := ih fun j hj => h j (List.mem_cons_of_mem _ hj)
    have hget : segments.get? i = some (segments.get ⟨i, hi⟩) := List.get?_eq_get hi
    refine ⟨segments.get ⟨i, hi⟩ :: out, ?_, by simp [hlen], fun k => ?_⟩
    · simp only [get_indices, hget, hout]
    · cases k with
      | zero => simp [hget]
      | succ k => simpa using hk k

/-- When the matched set is larger than the limit, sampling succeeds and the
output reads the strided indices off the input in order. -/
lemma sample_segments_evenly_over (segments : List Segment) (m : ℕ)
    (h : m < segments.length) :
    ∃ out, sample_segments_evenly segments m = some out ∧ out.length = m ∧
      ∀ k : ℕ, k < m → out.get? k = segments.get? (sample_idx segments.length m k) := by
  have hbound : ∀ i ∈ (List.range m).map fun i => sample_idx segments.length m i,
      i < segments.length := by
    intro i hi
    obtain ⟨j, hj, rfl⟩ := List.mem_map.mp hi
    exact sample_idx_lt _ _ _ h (List.mem_range.mp hj)
  obtain ⟨out, hout, hlen, hk⟩ := get_indices_spec segments _ hbound
  refine ⟨out, ?_, by simpa using hlen, fun k hkm => ?_⟩
  · unfold sample_segments_evenly
    rw [if_neg (not_le.mpr h)]
    exact hout
  · rw [hk k, List.get?_map, List.get?_range hkm]
    rfl

/-- C5: for `maxCount > 0`, `sample_segments_evenly` returns the input
unchanged when it has at most `maxCount` elements, and otherwise returns
exactly `maxCount` elements, the ones at indices `floor(i * len / maxCount)`
in original order; in particular the strides for 1000 segments down to 3
are the indices 0, 333 and 666. -/
theorem sample_segments_evenly_spec (segments : List Segment) (m : ℕ)
    (_hm : 0 < m) :
    (segments.length ≤ m → sample_segments_evenly segments m = some segments) ∧
    (m < segments.length →
      ∃ out, sample_segments_evenly segments m = some out ∧ out.length = m ∧
        ∀ k : ℕ, k < m →
          out.get? k = segments.get? (sample_idx segments.length m k)) ∧
    (sample_idx 1000 3 0 = 0 ∧ sample_idx 1000 3 1 = 333 ∧
      sample_idx 1000 3 2 = 666) := by
  refine ⟨fun h => ?_, fun h => sample_segments_evenly_over segments m h, ?_, ?_, ?_⟩
  · unfold sample_segments_evenly
    rw [if_pos h]
  · rw [sample_idx_eq]
  · rw [sample_idx_eq]
  · rw [sample_idx_eq]

/-- Witness for C5 at a concrete store of five segments sampled down to two:
the hypotheses hold and the characterization applies. -/
theorem sample_segments_evenly_spec_witness :
    0 < 2 ∧
      ((segs5.length ≤ 2 → sample_segments_evenly segs5 2 = some segs5) ∧
      (2 < segs5.length →
        ∃ out, sample_segments_evenly segs5 2 = some out ∧ out.length = 2 ∧
          ∀ k : ℕ, k < 2 →
            out.get? k = segs5.get? (sample_idx segs5.length 2 k)) ∧
      (sample_idx 1000 3 0 = 0 ∧ sample_idx 1000 3 1 = 333 ∧
        sample_idx 1000 3 2 = 666)) :=
  ⟨by decide, sample_segments_evenly_spec segs5 2 (by decide)⟩

/-- C10: when the list is strictly longer than `maxCount > 0`, the sampling
indices are strictly increasing and in bounds, so every index access
succeeds and sampling returns a result. -/
theorem sample_indices_in_bounds (segments : List Segment) (m : ℕ)
    (hm : 0 < m) (h : m < segments.length) :
    (∀ i j, i < j → j < m →
      sample_idx segments.length m i < sample_idx segments.length m j) ∧
    (∀ i, i < m → sample_idx segments.length m i < segments.length) ∧
    ∃ out, sample_segments_evenly segments m = some out := by
  refine ⟨fun i j hij _ => sample_idx_strict_mono _ _ _ _ hm h hij,
    fun i hi => sample_idx_lt _ _ _ h hi, ?_⟩
  obtain ⟨out, hout, -, -⟩ := sample_segments_evenly_over segments m h
  exact ⟨out, hout⟩

/-- Witness for C10 at the concrete five-segment store sampled down to two. -/
theorem sample_indices_in_bounds_witness :
    0 < 2 ∧ 2 < segs5.length ∧
      ((∀ i j, i < j → j < 2 →
        sample_idx segs5.length 2 i < sample_idx segs5.length 2 j) ∧
      (∀ i, i < 2 → sample_idx segs5.length 2 i < segs5.length) ∧
      ∃ out, sample_segments_evenly segs5 2 = some out) :=
  ⟨by decide, by decide, sample_indices_in_bounds segs5 2 (by decide) (by decide)⟩

/-! ### Route aggregation lemmas -/

/-- Characterization of `assess_route_from`: on a non-empty matched set it
always succeeds, every statistics field is computed from the full matched
set, and only the display list is affected by sampling. -/
lemma assess_route_from_eq (matched : List Segment) (h : matched ≠ []) :
    ∃ display, assess_route_from matched =
        some ⟨python_round_1 (avg_readiness matched),
          overall_risk_of (avg_readiness matched), display,
          critical_of matched, generate_recommendations matched⟩ ∧
      (matched.length ≤ 1000 → display = matched) ∧
      (1000 < matched.length → display.length = 1000) := by
  cases matched with
  | nil => exact absurd rfl h
  | cons s rest =>
    by_cases hlen : (s :: rest).length ≤ 1000
    · have hs : sample_segments_evenly (s :: rest) 1000 = some (s :: rest) := by
        unfold sample_segments_evenly
        rw [if_pos hlen]
      refine ⟨s :: rest, ?_, fun _ => rfl, fun hgt => absurd hlen (not_le.mpr hgt)⟩
      simp only [assess_route_from, hs]
      rfl
    · have hgt : 1000 < (s :: rest).length := not_le.mp hlen
      obtain ⟨out, hout, hlen1000, -⟩ := sample_segments_evenly_over (s :: rest) 1000 hgt
      refine ⟨out, ?_, fun hle => absurd hle hlen, fun _ => hlen1000⟩
      simp only [assess_route_from, hout]
      rfl

lemma cex_segments_length : cex_segments.length = 1001 := by
  unfold cex_segments
  rw [List.length_replicate]

lemma cex_segments_ne_nil : cex_segments ≠ [] := by
  intro hcon
  have hlen := cex_segments_length
  rw [hcon] at hlen
  exact absurd hlen (by norm_num)

lemma avg_readiness_cex_segments : avg_readiness cex_segments = 1 / 3 := by
  have hmap : cex_segments.map (fun s => s.readiness_score) =
      List.replicate 1001 (1 / 3 : ℚ) := by
    unfold cex_segments
    rw [List.map_replicate]
    rfl
  unfold avg_readiness
  rw [hmap, List.sum_replicate, cex_segments_length, nsmul_eq_mul]
  norm_num

/-- C4 (amended): for every non-empty matched set the statistics of the
route assessment — average readiness (rounded half-to-even to one decimal),
overall risk level, critical-segment list and recommendations — are computed
from the full matched set, even when the display list is down-sampled to
1000 elements. -/
theorem route_stats_computed_on_full_set (matched : List Segment)
    (h : matched ≠ []) :
    ∃ display, assess_route_from matched =
        some ⟨python_round_1 (avg_readiness matched),
          overall_risk_of (avg_readiness matched), display,
          critical_of matched, generate_recommendations matched⟩ ∧
      (1000 < matched.length → display.length = 1000) := by
  obtain ⟨display, he, -, hgt⟩ := assess_route_from_eq matched h
  exact ⟨display, he, hgt⟩

/-- Witness for C4 at a concrete matched set of 1001 segments, one more than
the sampling limit. -/
theorem route_stats_computed_on_full_set_witness :
    cex_segments ≠ [] ∧ 1000 < cex_segments.length ∧
      ∃ display, assess_route_from cex_segments =
          some ⟨python_round_1 (avg_readiness cex_segments),
            overall_risk_of (avg_readiness cex_segments), display,
            critical_of cex_segments, generate_recommendations cex_segments⟩ ∧
        (1000 < cex_segments.length → display.length = 1000) :=
  ⟨cex_segments_ne_nil, by rw [cex_segments_length]; norm_num,
    route_stats_computed_on_full_set cex_segments cex_segments_ne_nil⟩

/-- Counterexample to C4 as stated: on 1001 matched segments all scoring 1/3,
the returned `average_readiness_score` is 3/10 — the rounded mean — which is
not the arithmetic mean 1/3 of the matched set. -/
theorem average_readiness_is_rounded_cex :
    (assess_route_from cex_segments).map (fun a => a.average_readiness_score) =
      some (3 / 10) ∧
    avg_readiness cex_segments = 1 / 3 ∧ (3 / 10 : ℚ) ≠ 1 / 3 ∧
    1000 < cex_segments.length := by
  obtain ⟨display, he, -, -⟩ :=
    assess_route_from_eq cex_segments cex_segments_ne_nil
  refine ⟨?_, avg_readiness_cex_segments, by norm_num,
    by rw [cex_segments_length]; norm_num⟩
  rw [he, Option.map_some']
  simp only [avg_readiness_cex_segments]
  norm_num [python_round_1, round_half_even]

/-- C3 (amended): the critical-segment list of the route assessment contains
exactly the matched segments whose stored `risk_level` field is the string
CRITICAL; the engine trusts the stored field and does not recompute the
classification from `readiness_score`. -/
theorem critical_segments_use_stored_level (matched : List Segment)
    (h : matched ≠ []) :
    (assess_route_from matched).map (fun a => a.critical_segments) =
      some (matched.filter fun s => s.risk_level == "CRITICAL") := by
  obtain ⟨display, he, -, -⟩ := assess_route_from_eq matched h
  rw [he, Option.map_some']
  rfl

/-- Witness for C3 at the concrete five-segment store, one of whose segments
carries the stored label CRITICAL. -/
theorem critical_segments_use_stored_level_witness :
    segs5 ≠ [] ∧
      (assess_route_from segs5).map (fun a => a.critical_segments) =
        some (segs5.filter fun s => s.risk_level == "CRITICAL") :=
  ⟨by simp [segs5], critical_segments_use_stored_level segs5 (by simp [segs5])⟩

/-- Counterexample to C3 as stated: `bad_segment` has readiness score 40,
whose derived classification is CRITICAL, but its stored label is MODERATE,
and the assessment's critical-segment list for the matched set consisting of
exactly this segment is empty: the engine does not recompute the
classification from the readiness score. -/
theorem critical_segments_ignore_readiness_cex :
    bad_segment.readiness_score < 50 ∧
      (assess_route_from [bad_segment]).map (fun a => a.critical_segments) =
        some [] := by
  constructor
  · norm_num [bad_segment, mk_seg]
  · have h : ([bad_segment] : List Segment) ≠ [] := by simp
    obtain ⟨display, he, -, -⟩ := assess_route_from_eq [bad_segment] h
    rw [he, Option.map_some']
    rfl

/-- C8 (amended): loading the segment store performs no emptiness check:
for every input sequence, including the empty one, the load succeeds and the
store holds exactly that sequence. -/
theorem load_segment_store_total (segments : List Segment) :
    load_segment_store segments = some segments := rfl

/-- Counterexample to C8 as stated: loading zero segments does not fail with
an error — it succeeds and yields the empty store. -/
theorem load_segment_store_empty_cex :
    load_segment_store [] = some [] ∧
      load_segment_store ([] : List Segment) ≠ none :=
  ⟨rfl, by simp [load_segment_store]⟩
